import Mathlib

/-!
Verification development for the web-page TTL cache in
src/0x02-redis_basic/web.py.

The Python module defines a class WebCache holding a dictionary mapping a
URL to an entry dictionary with keys "content", "timestamp" and "count",
together with an expiration window expiration_time (default 10 seconds).
We embed the mapping as an association list from String to a CacheEntry
structure, wall-clock time (time.time()) as a rational number passed
explicitly to each operation that samples it, and each method as a pure
function returning its result together with the updated cache state.
-/

/-- One cached fetch result: the dictionary
value with keys content, timestamp and count stored in WebCache._cache. -/
structure CacheEntry where
  content : String
  timestamp : ℚ
  count : ℕ
deriving DecidableEq

/-- The WebCache object: the _cache dictionary (as an association list)
and the expiration_time configured at construction. The threading lock is
not part of the sequential state. -/
structure WebCache where
  cache : List (String × CacheEntry)
  expiration_time : ℚ
deriving DecidableEq

/-- Dictionary lookup: the first binding for a key, none when absent. -/
def lookupEntry (c : List (String × CacheEntry)) (url : String) : Option CacheEntry :=
  match c with
  | [] => none
  | (k, e) :: rest => if k = url then some e else lookupEntry rest url

/-- Dictionary deletion (the del statement): remove every binding for a key. -/
def eraseEntry (c : List (String × CacheEntry)) (url : String) :
    List (String × CacheEntry) :=
  match c with
  | [] => []
  | (k, e) :: rest =>
    if k = url then eraseEntry rest url else (k, e) :: eraseEntry rest url

/-- In-place update of the entry bound to a key (entry["count"] += 1 mutates
the dictionary value held in the mapping). -/
def updateEntry (c : List (String × CacheEntry)) (url : String) (e : CacheEntry) :
    List (String × CacheEntry) :=
  match c with
  | [] => []
  | (k, old) :: rest =>
    if k = url then (k, e) :: updateEntry rest url e
    else (k, old) :: updateEntry rest url e

/-- WebCache.__init__ with an empty mapping. -/
def WebCache.empty (expiration_time : ℚ) : WebCache :=
  { cache := [], expiration_time := expiration_time }

/-- The module-level instance cache_manager = WebCache() (expiration 10). -/
def cache_manager : WebCache := WebCache.empty 10

/-- WebCache.get_cache_entry, with now standing for the time.time() sample:
absent key returns None; an entry with now - timestamp > expiration_time is
deleted and None is returned; otherwise the entry count is incremented and
the (updated) entry is returned. -/
def WebCache.get_cache_entry (wc : WebCache) (url : String) (now : ℚ) :
    Option CacheEntry × WebCache :=
  match lookupEntry wc.cache url with
  | none => (none, wc)
  | some entry =>
    if now - entry.timestamp > wc.expiration_time then
      (none, { wc with cache := eraseEntry wc.cache url })
    else
      let entry' : CacheEntry :=
        { entry with count := entry.count + 1 }
      (some entry', { wc with cache := updateEntry wc.cache url entry' })

/-- WebCache.set_cache_entry: unconditionally bind url to a fresh entry with
the given content, timestamp = now (the time.time() sample) and count = 1. -/
def WebCache.set_cache_entry (wc : WebCache) (url content : String) (now : ℚ) :
    WebCache :=
  { wc with cache := (url, { content := content, timestamp := now, count := 1 })
      :: eraseEntry wc.cache url }

/-- WebCache.get_access_count: self._cache.get(url, \x7b\x7d).get("count", 0).
The method performs no write, which the embedding records by returning the
input state unchanged as the second component. -/
def WebCache.get_access_count (wc : WebCache) (url : String) : ℕ × WebCache :=
  (match lookupEntry wc.cache url with
   | none => 0
   | some e => e.count, wc)

/-- The single error kind raised by the external fetch collaborator
(requests.RequestException in get_page), carrying its message. -/
structure FetchError where
  msg : String
deriving DecidableEq

/-- The wrapper produced by the cache decorator. The external fetch func is a
parameter; tGet is the time.time() sample taken inside get_cache_entry and
tPut the later sample taken inside set_cache_entry. The result is the
returned content or the propagated error, the final cache state, and the
number of times the fetch was invoked. -/
def wrapper (fetch : String → Except FetchError String) (wc : WebCache)
    (url : String) (tGet tPut : ℚ) :
    Except FetchError String × WebCache × ℕ :=
  match wc.get_cache_entry url tGet with
  | (some cached, wc') => (Except.ok cached.content, wc', 0)
  | (none, wc') =>
    match fetch url with
    | Except.error e => (Except.error e, wc', 1)
    | Except.ok content =>
      (Except.ok content, wc'.set_cache_entry url content tPut, 1)

/-- One call against a WebCache: the three public methods, with the
time.time() sample of the mutating ones made explicit. -/
inductive CacheOp where
  | getEntry (url : String) (now : ℚ)
  | setEntry (url content : String) (now : ℚ)
  | accessCount (url : String)
deriving DecidableEq

/-- The state reached after one call. -/
def applyOp (wc : WebCache) (op : CacheOp) : WebCache :=
  match op with
  | .getEntry url now => (wc.get_cache_entry url now).2
  | .setEntry url content now => wc.set_cache_entry url content now
  | .accessCount url => (wc.get_access_count url).2

/-- The state reached after a sequence of calls. -/
def runOps (wc : WebCache) (ops : List CacheOp) : WebCache :=
  ops.foldl applyOp wc

/-- A concrete state shared by several witnesses below: the default-TTL cache
after set_cache_entry "u" "A" at time 0. -/
def wcU : WebCache := (WebCache.empty 10).set_cache_entry "u" "A" 0

theorem lookupEntry_eraseEntry_self (c : List (String × CacheEntry)) (url : String) :
    lookupEntry (eraseEntry c url) url = none := by
  induction c with
  | nil => rfl
  | cons p rest ih =>
    obtain ⟨k, e⟩ := p
    by_cases h : k = url
    · simpa [eraseEntry, h] using ih
    · simp [eraseEntry, h, lookupEntry, ih]

theorem lookupEntry_eraseEntry_ne (c : List (String × CacheEntry)) (url k : String)
    (h : k ≠ url) : lookupEntry (eraseEntry c url) k = lookupEntry c k := by
  induction c with
  | nil => rfl
  | cons p rest ih =>
    obtain ⟨k', e⟩ := p
    have h2 : url ≠ k := fun hh => h hh.symm
    by_cases h' : k' = url
    · have : k' ≠ k := by
        intro hk; exact h (hk ▸ h')
      simp [eraseEntry, h', lookupEntry, this, h2, ih]
    · by_cases hk : k' = k
      · simp [eraseEntry, h', lookupEntry, hk, h]
      · simp [eraseEntry, h', lookupEntry, hk, ih]

theorem lookupEntry_updateEntry_self (c : List (String × CacheEntry)) (url : String)
    (e : CacheEntry) :
    lookupEntry (updateEntry c url e) url = (lookupEntry c url).map fun _ => e := by
  induction c with
  | nil => rfl
  | cons p rest ih =>
    obtain ⟨k, old⟩ := p
    by_cases h : k = url
    · simp [updateEntry, h, lookupEntry]
    · simp [updateEntry, h, lookupEntry, ih]

theorem lookupEntry_updateEntry_ne (c : List (String × CacheEntry)) (url k : String)
    (e : CacheEntry) (h : k ≠ url) :
    lookupEntry (updateEntry c url e) k = lookupEntry c k := by
  induction c with
  | nil => rfl
  | cons p rest ih =>
    obtain ⟨k', old⟩ := p
    have h2 : url ≠ k := fun hh => h hh.symm
    by_cases h' : k' = url
    · have : k' ≠ k := by
        intro hk; exact h (hk ▸ h')
      simp [updateEntry, h', lookupEntry, this, h2, ih]
    · by_cases hk : k' = k
      · simp [updateEntry, h', lookupEntry, hk, h]
      · simp [updateEntry, h', lookupEntry, hk, ih]

theorem mem_eraseEntry (c : List (String × CacheEntry)) (url : String)
    (p : String × CacheEntry) (h : p ∈ eraseEntry c url) : p ∈ c := by
  induction c with
  | nil => simp [eraseEntry] at h
  | cons q rest ih =>
    obtain ⟨k, e⟩ := q
    by_cases hk : k = url
    · simp only [eraseEntry, if_pos hk] at h
      exact List.mem_cons_of_mem _ (ih h)
    · simp only [eraseEntry, if_neg hk, List.mem_cons] at h
      rcases h with h | h
      · exact h ▸ List.mem_cons_self _ _
      · exact List.mem_cons_of_mem _ (ih h)

theorem mem_updateEntry (c : List (String × CacheEntry)) (url : String)
    (e : CacheEntry) (p : String × CacheEntry) (h : p ∈ updateEntry c url e) :
    p ∈ c ∨ p.2 = e := by
  induction c with
  | nil => simp [updateEntry] at h
  | cons q rest ih =>
    obtain ⟨k, old⟩ := q
    by_cases hk : k = url
    · simp only [updateEntry, if_pos hk, List.mem_cons] at h
      rcases h with h | h
      · exact Or.inr (by simp [h])
      · rcases ih h with h' | h'
        · exact Or.inl (List.mem_cons_of_mem _ h')
        · exact Or.inr h'
    · simp only [updateEntry, if_neg hk, List.mem_cons] at h
      rcases h with h | h
      · exact Or.inl (h ▸ List.mem_cons_self _ _)
      · rcases ih h with h' | h'
        · exact Or.inl (List.mem_cons_of_mem _ h')
        · exact Or.inr h'

theorem get_cache_entry_miss_lookup (wc : WebCache) (url : String) (now : ℚ)
    (h : (wc.get_cache_entry url now).1 = none) :
    lookupEntry (wc.get_cache_entry url now).2.cache url = none := by
  rcases hl : lookupEntry wc.cache url with _ | e
  · simp [WebCache.get_cache_entry, hl]
  · by_cases hexp : now - e.timestamp > wc.expiration_time
    · simp [WebCache.get_cache_entry, hl, hexp, lookupEntry_eraseEntry_self]
    · simp [WebCache.get_cache_entry, hl, hexp] at h

theorem get_cache_entry_other_keys (wc : WebCache) (url : String) (now : ℚ)
    (k : String) (h : k ≠ url) :
    lookupEntry (wc.get_cache_entry url now).2.cache k = lookupEntry wc.cache k := by
  unfold WebCache.get_cache_entry
  cases hl : lookupEntry wc.cache url with
  | none => rfl
  | some e =>
    by_cases hexp : now - e.timestamp > wc.expiration_time
    · simp [hexp, lookupEntry_eraseEntry_ne _ _ _ h]
    · simp [hexp, lookupEntry_updateEntry_ne _ _ _ _ h]

example :
    ((cache_manager.set_cache_entry "u" "A" 0).get_access_count "u").1 = 1 := by
  decide

example :
    ((cache_manager.set_cache_entry "u" "A" 0).get_cache_entry "u" 10).1 =
      some { content := "A", timestamp := 0, count := 2 } := by
  norm_num [cache_manager, WebCache.empty, WebCache.set_cache_entry,
    WebCache.get_cache_entry, lookupEntry, eraseEntry, updateEntry]

example :
    ((cache_manager.set_cache_entry "u" "A" 0).get_cache_entry "u" 11).1 =
      none := by
  norm_num [cache_manager, WebCache.empty, WebCache.set_cache_entry,
    WebCache.get_cache_entry, lookupEntry, eraseEntry, updateEntry]

/-- A two-key concrete state: entry "v" written at time 5, entry "u" at time 0. -/
def wcUV : WebCache :=
  ((WebCache.empty 10).set_cache_entry "v" "B" 5).set_cache_entry "u" "A" 0

/-- C1 counterexample: in the reachable state wcU (entry for "u" written at
time 0, expiration window 10), at time 100 the entry is expired
(100 - 0 > 10), yet get_access_count returns the stale counter 1, not 0:
the method applies no liveness check. -/
theorem C1_counterexample :
    lookupEntry wcU.cache "u" = some { content := "A", timestamp := 0, count := 1 } ∧
    (100 : ℚ) - (0 : ℚ) > wcU.expiration_time ∧
    (wcU.get_access_count "u").1 = 1 := by
  refine ⟨?_, ?_, ?_⟩ <;>
    norm_num [wcU, WebCache.empty, WebCache.set_cache_entry, eraseEntry,
      lookupEntry, WebCache.get_access_count]

/-- C1 (amended): get_access_count applies no liveness check, unlike
get_cache_entry: it returns 0 when the key is absent from the mapping, and
the stored counter when the key is present — even for an expired entry
(now - insertedAt > TTL) not yet evicted, whose stale counter is returned. -/
theorem C1_amended_no_liveness_check :
    (∀ (wc : WebCache) (url : String),
      lookupEntry wc.cache url = none → (wc.get_access_count url).1 = 0) ∧
    (∀ (wc : WebCache) (url : String) (e : CacheEntry) (now : ℚ),
      lookupEntry wc.cache url = some e →
      now - e.timestamp > wc.expiration_time →
      (wc.get_access_count url).1 = e.count) := by
  constructor
  · intro wc url h
    simp [WebCache.get_access_count, h]
  · intro wc url e now h _
    simp [WebCache.get_access_count, h]

/-- C1 witness: the amended statement evaluated on the empty cache and on
the expired-entry state wcU at time 100. -/
theorem C1_amended_witness :
    ((WebCache.empty 10).get_access_count "u").1 = 0 ∧
    (wcU.get_access_count "u").1 = 1 := by
  constructor
  · exact C1_amended_no_liveness_check.1 (WebCache.empty 10) "u"
      (by simp [WebCache.empty, lookupEntry])
  · have h : lookupEntry wcU.cache "u" =
        some { content := "A", timestamp := 0, count := 1 } := by
      norm_num [wcU, WebCache.empty, WebCache.set_cache_entry, eraseEntry, lookupEntry]
    exact C1_amended_no_liveness_check.2 wcU "u" _ 100 h
      (by norm_num [wcU, WebCache.empty, WebCache.set_cache_entry])

/-- C2 counterexample: with expiration window 10 and an entry inserted at
time 0, a read at exactly now = insertedAt + TTL = 10 returns the entry
(live, counter incremented), not a miss — contradicting the claim that the
exact boundary instant is expired. -/
theorem C2_counterexample :
    (wcU.get_cache_entry "u" (0 + 10)).1 =
      some { content := "A", timestamp := 0, count := 2 } := by
  norm_num [wcU, WebCache.empty, WebCache.set_cache_entry, WebCache.get_cache_entry,
    lookupEntry, eraseEntry, updateEntry]

/-- C2 (amended): the liveness check is insertedAt + TTL >= now (non-strict):
a read strictly before insertedAt + TTL sees the entry live, a read strictly
after sees it expired, and a read at exactly now = insertedAt + TTL sees it
live, not expired — the code expires only when now - insertedAt is strictly
greater than the expiration window. -/
theorem C2_amended_liveness_boundary (wc : WebCache) (url : String) (e : CacheEntry)
    (now : ℚ) (h : lookupEntry wc.cache url = some e) :
    (now < e.timestamp + wc.expiration_time →
      (wc.get_cache_entry url now).1 = some { e with count := e.count + 1 }) ∧
    (e.timestamp + wc.expiration_time < now →
      (wc.get_cache_entry url now).1 = none) ∧
    (now = e.timestamp + wc.expiration_time →
      (wc.get_cache_entry url now).1 = some { e with count := e.count + 1 }) := by
  refine ⟨fun hlt => ?_, fun hgt => ?_, fun heq => ?_⟩
  · have hexp : ¬ now - e.timestamp > wc.expiration_time := by linarith
    simp [WebCache.get_cache_entry, h, hexp]
  · have hexp : now - e.timestamp > wc.expiration_time := by linarith
    simp [WebCache.get_cache_entry, h, hexp]
  · have hexp : ¬ now - e.timestamp > wc.expiration_time := by linarith
    simp [WebCache.get_cache_entry, h, hexp]

/-- C2 witness: the amended boundary semantics evaluated on wcU at the
concrete times 9 (strictly before the boundary), 11 (strictly after) and
10 (exactly at the boundary). -/
theorem C2_amended_witness :
    lookupEntry wcU.cache "u" = some { content := "A", timestamp := 0, count := 1 } ∧
    (wcU.get_cache_entry "u" 9).1 = some { content := "A", timestamp := 0, count := 2 } ∧
    (wcU.get_cache_entry "u" 11).1 = none ∧
    (wcU.get_cache_entry "u" 10).1 = some { content := "A", timestamp := 0, count := 2 } := by
  have h : lookupEntry wcU.cache "u" =
      some { content := "A", timestamp := 0, count := 1 } := by
    norm_num [wcU, WebCache.empty, WebCache.set_cache_entry, eraseEntry, lookupEntry]
  refine ⟨h, ?_, ?_, ?_⟩
  · have h9 := (C2_amended_liveness_boundary wcU "u" _ 9 h).1
      (by norm_num [wcU, WebCache.empty, WebCache.set_cache_entry])
    simpa using h9
  · exact (C2_amended_liveness_boundary wcU "u" _ 11 h).2.1
      (by norm_num [wcU, WebCache.empty, WebCache.set_cache_entry])
  · have h10 := (C2_amended_liveness_boundary wcU "u" _ 10 h).2.2
      (by norm_num [wcU, WebCache.empty, WebCache.set_cache_entry])
    simpa using h10

/-- C7: get_access_count never mutates the cache state: it returns the
input state unchanged (every entry's content, timestamp and counter intact),
and a repeated call on the resulting state returns the same value. -/
theorem C7_get_access_count_idempotent (wc : WebCache) (url : String) :
    (wc.get_access_count url).2 = wc ∧
    ((wc.get_access_count url).2.get_access_count url).1 =
      (wc.get_access_count url).1 :=
  ⟨rfl, rfl⟩

/-- C8: when get_cache_entry finds the key present but expired it deletes
the entry synchronously before returning the miss: the call returns none,
immediately afterwards the mapping has no entry for the key, and the binding
of every other key is untouched. -/
theorem C8_expired_lookup_deletes (wc : WebCache) (url : String) (e : CacheEntry)
    (now : ℚ) (hmem : lookupEntry wc.cache url = some e)
    (hexp : now - e.timestamp > wc.expiration_time) :
    (wc.get_cache_entry url now).1 = none ∧
    lookupEntry (wc.get_cache_entry url now).2.cache url = none ∧
    ∀ k, k ≠ url →
      lookupEntry (wc.get_cache_entry url now).2.cache k = lookupEntry wc.cache k := by
  refine ⟨?_, ?_, fun k hk => get_cache_entry_other_keys wc url now k hk⟩
  · simp [WebCache.get_cache_entry, hmem, hexp]
  · simp [WebCache.get_cache_entry, hmem, hexp, lookupEntry_eraseEntry_self]

/-- C8 witness: on the two-key state wcUV, an expired read of "u" at time
100 misses, deletes "u", and leaves the binding of "v" intact. -/
theorem C8_witness :
    lookupEntry wcUV.cache "u" = some { content := "A", timestamp := 0, count := 1 } ∧
    (wcUV.get_cache_entry "u" 100).1 = none ∧
    lookupEntry (wcUV.get_cache_entry "u" 100).2.cache "u" = none ∧
    lookupEntry (wcUV.get_cache_entry "u" 100).2.cache "v" =
      some { content := "B", timestamp := 5, count := 1 } := by
  have hmem : lookupEntry wcUV.cache "u" =
      some { content := "A", timestamp := 0, count := 1 } := by
    norm_num [wcUV, WebCache.empty, WebCache.set_cache_entry, eraseEntry, lookupEntry]
  have h := C8_expired_lookup_deletes wcUV "u" _ 100 hmem
    (by norm_num [wcUV, WebCache.empty, WebCache.set_cache_entry])
  refine ⟨hmem, h.1, h.2.1, ?_⟩
  have hv : ("v" : String) ≠ "u" := by decide
  rw [h.2.2 "v" hv]
  decide

/-- C3: when the miss path is taken and the external fetch fails, the wrapper
propagates the very same error, the final state is exactly the state left by
the miss lookup (no entry for the key is created or overwritten and the key
is absent from the mapping), every other key's binding equals its pre-call
binding, and a subsequent get_access_count for the key returns 0. -/
theorem C3_failed_fetch_propagates (fetch : String → Except FetchError String)
    (wc : WebCache) (url : String) (tGet tPut : ℚ) (err : FetchError)
    (hmiss : (wc.get_cache_entry url tGet).1 = none)
    (hfetch : fetch url = Except.error err) :
    wrapper fetch wc url tGet tPut =
      (Except.error err, (wc.get_cache_entry url tGet).2, 1) ∧
    lookupEntry (wrapper fetch wc url tGet tPut).2.1.cache url = none ∧
    ((wrapper fetch wc url tGet tPut).2.1.get_access_count url).1 = 0 ∧
    ∀ k, k ≠ url →
      lookupEntry (wrapper fetch wc url tGet tPut).2.1.cache k =
        lookupEntry wc.cache k := by
  have hpair : wc.get_cache_entry url tGet = (none, (wc.get_cache_entry url tGet).2) := by
    rw [← hmiss]
  have hw : wrapper fetch wc url tGet tPut =
      (Except.error err, (wc.get_cache_entry url tGet).2, 1) := by
    unfold wrapper
    rw [hpair]
    simp [hfetch]
  refine ⟨hw, ?_, ?_, ?_⟩
  · rw [hw]
    exact get_cache_entry_miss_lookup wc url tGet hmiss
  · rw [hw]
    simp [WebCache.get_access_count, get_cache_entry_miss_lookup wc url tGet hmiss]
  · intro k hk
    rw [hw]
    exact get_cache_entry_other_keys wc url tGet k hk

/-- C3 witness: a failing fetch against the empty cache leaves it empty,
propagates the error, and get_access_count still reports 0. -/
theorem C3_witness :
    ((WebCache.empty 10).get_cache_entry "u" 0).1 = none ∧
    wrapper (fun _ => Except.error { msg := "boom" }) (WebCache.empty 10) "u" 0 0 =
      (Except.error { msg := "boom" }, WebCache.empty 10, 1) ∧
    ((wrapper (fun _ => Except.error { msg := "boom" })
        (WebCache.empty 10) "u" 0 0).2.1.get_access_count "u").1 = 0 := by
  have hmiss : ((WebCache.empty 10).get_cache_entry "u" 0).1 = none := by
    simp [WebCache.empty, WebCache.get_cache_entry, lookupEntry]
  have h := C3_failed_fetch_propagates (fun _ => Except.error { msg := "boom" })
    (WebCache.empty 10) "u" 0 0 { msg := "boom" } hmiss rfl
  refine ⟨hmiss, ?_, h.2.2.1⟩
  rw [h.1]
  rfl

/-- C4: set_cache_entry unconditionally installs an entry with counter 1
(and an immediate get_access_count returns 1); every live hit of
get_cache_entry increments the counter by exactly 1 and returns the stored
content; concretely, after writing "A" at time 0 with window 10, three hits
at times 1, 2, 3 return "A" with counters 2, 3, 4 and get_access_count then
returns 4. -/
theorem C4_put_and_hit_counting :
    (∀ (wc : WebCache) (url content : String) (now : ℚ),
      lookupEntry (wc.set_cache_entry url content now).cache url =
        some { content := content, timestamp := now, count := 1 } ∧
      ((wc.set_cache_entry url content now).get_access_count url).1 = 1) ∧
    (∀ (wc : WebCache) (url : String) (e : CacheEntry) (now : ℚ),
      lookupEntry wc.cache url = some e →
      ¬ now - e.timestamp > wc.expiration_time →
      (wc.get_cache_entry url now).1 = some { e with count := e.count + 1 } ∧
      ((wc.get_cache_entry url now).2.get_access_count url).1 = e.count + 1) ∧
    (wcU.get_cache_entry "u" 1).1 = some { content := "A", timestamp := 0, count := 2 } ∧
    ((wcU.get_cache_entry "u" 1).2.get_cache_entry "u" 2).1 =
      some { content := "A", timestamp := 0, count := 3 } ∧
    (((wcU.get_cache_entry "u" 1).2.get_cache_entry "u" 2).2.get_cache_entry "u" 3).1 =
      some { content := "A", timestamp := 0, count := 4 } ∧
    ((((wcU.get_cache_entry "u" 1).2.get_cache_entry "u" 2).2.get_cache_entry
        "u" 3).2.get_access_count "u").1 = 4 := by
  refine ⟨?_, ?_, ?_, ?_, ?_, ?_⟩
  · intro wc url content now
    constructor
    · simp [WebCache.set_cache_entry, lookupEntry]
    · simp [WebCache.set_cache_entry, WebCache.get_access_count, lookupEntry]
  · intro wc url e now h hexp
    constructor
    · simp [WebCache.get_cache_entry, h, hexp]
    · simp [WebCache.get_cache_entry, h, hexp, WebCache.get_access_count,
        lookupEntry_updateEntry_self]
  all_goals
    norm_num [wcU, WebCache.empty, WebCache.set_cache_entry, WebCache.get_cache_entry,
      WebCache.get_access_count, lookupEntry, eraseEntry, updateEntry]

/-- C4 witness: the live-hit clause evaluated on wcU at time 5. -/
theorem C4_witness :
    lookupEntry wcU.cache "u" = some { content := "A", timestamp := 0, count := 1 } ∧
    (wcU.get_cache_entry "u" 5).1 = some { content := "A", timestamp := 0, count := 2 } ∧
    ((wcU.get_cache_entry "u" 5).2.get_access_count "u").1 = 2 := by
  have h : lookupEntry wcU.cache "u" =
      some { content := "A", timestamp := 0, count := 1 } := by
    norm_num [wcU, WebCache.empty, WebCache.set_cache_entry, eraseEntry, lookupEntry]
  have h2 := C4_put_and_hit_counting.2.1 wcU "u" _ 5 h
    (by norm_num [wcU, WebCache.empty, WebCache.set_cache_entry])
  exact ⟨h, by simpa using h2.1, by simpa using h2.2⟩

/-- C5: on a live hit the wrapper returns the cached content and performs 0
fetch invocations; on a miss with a successful fetch it performs exactly 1
fetch invocation, stores the result via set_cache_entry, and returns that
same content. -/
theorem C5_wrapper_hit_and_miss (fetch : String → Except FetchError String)
    (wc : WebCache) (url : String) (tGet tPut : ℚ) :
    (∀ e, (wc.get_cache_entry url tGet).1 = some e →
      wrapper fetch wc url tGet tPut =
        (Except.ok e.content, (wc.get_cache_entry url tGet).2, 0)) ∧
    (∀ content, (wc.get_cache_entry url tGet).1 = none →
      fetch url = Except.ok content →
      wrapper fetch wc url tGet tPut =
        (Except.ok content,
          ((wc.get_cache_entry url tGet).2).set_cache_entry url content tPut, 1)) := by
  constructor
  · intro e he
    have hpair : wc.get_cache_entry url tGet =
        (some e, (wc.get_cache_entry url tGet).2) := by
      rw [← he]
    unfold wrapper
    rw [hpair]
  · intro content hn hf
    have hpair : wc.get_cache_entry url tGet =
        (none, (wc.get_cache_entry url tGet).2) := by
      rw [← hn]
    unfold wrapper
    rw [hpair]
    simp [hf]

/-- C5 witness: the hit clause evaluated on wcU at time 5, with a fetch
that would return different content and is not consulted; and the miss
clause evaluated on the empty cache with a fetch returning "B". -/
theorem C5_witness :
    (wcU.get_cache_entry "u" 5).1 = some { content := "A", timestamp := 0, count := 2 } ∧
    (wrapper (fun _ => Except.ok "zz") wcU "u" 5 5).1 = Except.ok "A" ∧
    (wrapper (fun _ => Except.ok "zz") wcU "u" 5 5).2.2 = 0 ∧
    wrapper (fun _ => Except.ok "B") (WebCache.empty 10) "u" 0 0 =
      (Except.ok "B", (WebCache.empty 10).set_cache_entry "u" "B" 0, 1) := by
  have he : (wcU.get_cache_entry "u" 5).1 =
      some { content := "A", timestamp := 0, count := 2 } := by
    norm_num [wcU, WebCache.empty, WebCache.set_cache_entry, WebCache.get_cache_entry,
      lookupEntry, eraseEntry, updateEntry]
  have h := (C5_wrapper_hit_and_miss (fun _ => Except.ok "zz") wcU "u" 5 5).1 _ he
  have hm := (C5_wrapper_hit_and_miss (fun _ => Except.ok "B")
      (WebCache.empty 10) "u" 0 0).2 "B" rfl rfl
  exact ⟨he, by rw [h], by rw [h], by rw [hm]; rfl⟩

/-- C6: after set_cache_entry "u" "v1" at time 0 with window 10, a wrapper
call at time 11 (one past the window) with a fetch returning "v2" invokes
the fetch (count 1), returns "v2", and leaves "u" cached as "v2" with
counter 1, so get_access_count returns 1. -/
theorem C6_refetch_after_expiry :
    (wrapper (fun _ => Except.ok "v2")
        ((WebCache.empty 10).set_cache_entry "u" "v1" 0) "u" 11 11).1 =
      Except.ok "v2" ∧
    (wrapper (fun _ => Except.ok "v2")
        ((WebCache.empty 10).set_cache_entry "u" "v1" 0) "u" 11 11).2.2 = 1 ∧
    lookupEntry (wrapper (fun _ => Except.ok "v2")
        ((WebCache.empty 10).set_cache_entry "u" "v1" 0) "u" 11 11).2.1.cache "u" =
      some { content := "v2", timestamp := 11, count := 1 } ∧
    ((wrapper (fun _ => Except.ok "v2")
        ((WebCache.empty 10).set_cache_entry "u" "v1" 0) "u" 11 11).2.1.get_access_count
      "u").1 = 1 := by
  norm_num [wrapper, WebCache.empty, WebCache.set_cache_entry, WebCache.get_cache_entry,
    WebCache.get_access_count, lookupEntry, eraseEntry, updateEntry]

/-- Every entry present in a cache state has a counter of at least 1. -/
def countInv (wc : WebCache) : Prop := ∀ p ∈ wc.cache, 1 ≤ p.2.count

theorem countInv_get (wc : WebCache) (url : String) (now : ℚ) (h : countInv wc) :
    countInv (wc.get_cache_entry url now).2 := by
  rcases hl : lookupEntry wc.cache url with _ | e
  · simpa [WebCache.get_cache_entry, hl] using h
  · by_cases hexp : now - e.timestamp > wc.expiration_time
    · intro p hp
      simp only [WebCache.get_cache_entry, hl, if_pos hexp] at hp
      exact h p (mem_eraseEntry _ _ _ hp)
    · intro p hp
      simp only [WebCache.get_cache_entry, hl, if_neg hexp] at hp
      rcases mem_updateEntry _ _ _ _ hp with h' | h'
      · exact h p h'
      · rw [h']
        simp

theorem countInv_set (wc : WebCache) (url content : String) (now : ℚ)
    (h : countInv wc) : countInv (wc.set_cache_entry url content now) := by
  intro p hp
  simp only [WebCache.set_cache_entry, List.mem_cons] at hp
  rcases hp with hp | hp
  · subst hp
    simp
  · exact h p (mem_eraseEntry _ _ _ hp)

theorem countInv_applyOp (wc : WebCache) (op : CacheOp) (h : countInv wc) :
    countInv (applyOp wc op) := by
  cases op with
  | getEntry url now => exact countInv_get wc url now h
  | setEntry url content now => exact countInv_set wc url content now h
  | accessCount url => exact h

theorem runOps_countInv (ops : List CacheOp) (wc : WebCache) (h : countInv wc) :
    countInv (runOps wc ops) := by
  induction ops generalizing wc with
  | nil => exact h
  | cons op rest ih => exact ih (applyOp wc op) (countInv_applyOp wc op h)

/-- C9: in every state reachable from a freshly constructed cache by any
sequence of the three public calls, every entry present in the mapping has
a counter of at least 1; each entry moreover carries all three fields
content, timestamp and count by construction, matching that the code only
ever stores complete three-key entry dictionaries. -/
theorem C9_reachable_counter_invariant (T : ℚ) (ops : List CacheOp) :
    countInv (runOps (WebCache.empty T) ops) :=
  runOps_countInv ops (WebCache.empty T) (by intro p hp; simp [WebCache.empty] at hp)
